import Mathlib

/-!
Verification of the Supertrend breakout/retest scanner (src/main.py).

The program's numeric values (Python floats) are modelled as rationals,
except for the logarithmic strength score where `math.log` is modelled by
`Real.log`.  A candle is the exchange's 12-element array; only the fields
the program reads are kept.  Fallible code (network fetches, caught
exceptions) is modelled with `Option`/`Except`.
-/

/-- One OHLCV candle as the exchange returns it.  Python positional fields:
index 0 = open time (ms), 1 = open, 2 = high, 3 = low, 4 = close,
5 = base-asset volume, 7 = quote-asset volume. -/
structure Candle where
  openTime : ℕ
  openP : ℚ
  high : ℚ
  low : ℚ
  close : ℚ
  volume : ℚ
  quoteVolume : ℚ
deriving DecidableEq

instance : Inhabited Candle := ⟨⟨0, 0, 0, 0, 0, 0, 0⟩⟩

/-- Close price at index `idx` (`float(candles[idx][4])`). -/
def closeAt (candles : List Candle) (idx : ℕ) : ℚ :=
  (candles.getD idx default).close

-- ==== Settings (src/main.py constants) ====

def RSI_PERIOD : ℕ := 14

def VOL_MULT_RETEST : ℚ := 3 / 2

def VOL_LEN : ℕ := 20

def ATR_MOVE_MULT : ℚ := 1 / 2

def RETEST_TIMING_MAX : ℕ := 15

def MIN_STRENGTH_SCORE : ℚ := 0

def MIN_CSINCE : ℕ := 0

def MIN_VOLUME_MULT : ℚ := 0

-- ==== Wilder smoothing, shared by RSI and ATR ====

/-- Wilder/RMA recurrence `avg = (avg*(period-1) + value) / period`, folded
over a value list starting from a seed. -/
def wilder (period : ℕ) (seed : ℚ) (vals : List ℚ) : ℚ :=
  vals.foldl (fun a v => (a * ((period : ℚ) - 1) + v) / (period : ℚ)) seed

/-- Round-half-even to an integer, as Python's `round` does on exact ties. -/
def roundHalfEven (q : ℚ) : ℤ :=
  if q - ⌊q⌋ = 1 / 2 then (if ⌊q⌋ % 2 = 0 then ⌊q⌋ else ⌊q⌋ + 1) else round q

/-- Python `round(x, 2)`: round to 2 decimal places. -/
def round2 (q : ℚ) : ℚ := (roundHalfEven (q * 100) : ℚ) / 100

-- ==== RSI (src/main.py calculate_rsi) ====

/-- Per-step close differences (`changes` in `calculate_rsi`). -/
def rsiChanges (closes : List ℚ) : List ℚ :=
  (List.range (closes.length - 1)).map
    (fun i => closes.getD (i + 1) 0 - closes.getD i 0)

/-- `gains = [max(c, 0) for c in changes]`. -/
def rsiGains (closes : List ℚ) : List ℚ := (rsiChanges closes).map (fun c => max c 0)

/-- `losses = [max(-c, 0) for c in changes]`. -/
def rsiLosses (closes : List ℚ) : List ℚ := (rsiChanges closes).map (fun c => max (-c) 0)

/-- Final `avg_gain`: simple mean of the first `period` gains, then Wilder
smoothing over the rest. -/
def rsiAvgGain (closes : List ℚ) (period : ℕ) : ℚ :=
  wilder period (((rsiGains closes).take period).sum / (period : ℚ))
    ((rsiGains closes).drop period)

/-- Final `avg_loss`: simple mean of the first `period` losses, then Wilder
smoothing over the rest. -/
def rsiAvgLoss (closes : List ℚ) (period : ℕ) : ℚ :=
  wilder period (((rsiLosses closes).take period).sum / (period : ℚ))
    ((rsiLosses closes).drop period)

/-- `calculate_rsi` from src/main.py: Wilder RSI over a close series.
Returns `none` ("no value") when fewer than `period + 1` closes are given;
returns exactly 100 when the final average loss is zero, and otherwise
`100 - 100/(1 + avg_gain/avg_loss)` rounded to 2 decimal places. -/
def calculate_rsi (closes : List ℚ) (period : ℕ) : Option ℚ :=
  if closes.length < period + 1 then none
  else if rsiAvgLoss closes period = 0 then some 100
  else some (round2 (100 - 100 / (1 + rsiAvgGain closes period / rsiAvgLoss closes period)))

-- ==== ATR (src/main.py calculate_atr) ====

/-- True range of each bar against its predecessor (the loop in
`calculate_atr`): `max(high-low, |high-prevClose|, |low-prevClose|)`. -/
def trueRanges (candles : List Candle) : List ℚ :=
  (List.range (candles.length - 1)).map fun i =>
    let high := (candles.getD (i + 1) default).high
    let low := (candles.getD (i + 1) default).low
    let prev_close := (candles.getD i default).close
    max (high - low) (max |high - prev_close| |low - prev_close|)

/-- `calculate_atr` from src/main.py: seed by the simple mean of the first
`period` true ranges, then Wilder smoothing. -/
def calculate_atr (candles : List Candle) (period : ℕ) : Option ℚ :=
  if candles.length < period + 1 then none
  else
    let trs := trueRanges candles
    some (wilder period ((trs.take period).sum / (period : ℚ)) (trs.drop period))

-- ==== Supertrend (src/main.py calculate_supertrend) ====

/-- Bar midpoint `src = (high + low) / 2` at index `idx`. -/
def srcAt (candles : List Candle) (idx : ℕ) : ℚ :=
  ((candles.getD idx default).high + (candles.getD idx default).low) / 2

/-- The ATR the supertrend loop recomputes at bar `idx`
(`calculate_atr(candles[:idx+1], atr_period)`). -/
def atrAt (candles : List Candle) (p idx : ℕ) : ℚ :=
  (calculate_atr (candles.take (idx + 1)) p).getD 0

/-- Candidate lower band `up = src - multiplier * ATR` at bar `idx`. -/
def rawUp (candles : List Candle) (p : ℕ) (m : ℚ) (idx : ℕ) : ℚ :=
  srcAt candles idx - m * atrAt candles p idx

/-- Candidate upper band `dn = src + multiplier * ATR` at bar `idx`. -/
def rawDn (candles : List Candle) (p : ℕ) (m : ℚ) (idx : ℕ) : ℚ :=
  srcAt candles idx + m * atrAt candles p idx

/-- The `up_list` entries of the supertrend loop; `i` counts evaluated bars,
bar `i` sits at candle index `p + i`.  The candidate band is max'ed against
the previous band exactly when the previous close was above it. -/
def stUp (candles : List Candle) (p : ℕ) (m : ℚ) : ℕ → ℚ
  | 0 => rawUp candles p m p
  | i + 1 =>
    let u := rawUp candles p m (p + i + 1)
    let u1 := stUp candles p m i
    if closeAt candles (p + i) > u1 then max u u1 else u

/-- The `dn_list` entries of the supertrend loop (symmetric sticky rule,
with `min` and "previous close below previous upper band"). -/
def stDn (candles : List Candle) (p : ℕ) (m : ℚ) : ℕ → ℚ
  | 0 => rawDn candles p m p
  | i + 1 =>
    let d := rawDn candles p m (p + i + 1)
    let d1 := stDn candles p m i
    if closeAt candles (p + i) < d1 then min d d1 else d

/-- The `trend_list` entries of the supertrend loop: the first evaluated bar
is seeded `1`; later bars flip `-1 → 1` when close exceeds the previous
upper band, `1 → -1` when close drops below the previous lower band, and
otherwise carry the previous trend. -/
def stTrend (candles : List Candle) (p : ℕ) (m : ℚ) : ℕ → ℤ
  | 0 => 1
  | i + 1 =>
    let pt := stTrend candles p m i
    if pt = -1 ∧ closeAt candles (p + i + 1) > stDn candles p m i then 1
    else if pt = 1 ∧ closeAt candles (p + i + 1) < stUp candles p m i then -1
    else pt

/-- The dictionary `calculate_supertrend` returns. -/
structure STResult where
  trend_list : List ℤ
  up_list : List ℚ
  dn_list : List ℚ
  last_trend : ℤ
  prev_trend : ℤ
  last_up : ℚ
  last_dn : ℚ
  prev_dn : ℚ
deriving DecidableEq

instance : Inhabited STResult := ⟨⟨[], [], [], 1, 1, 0, 0, 0⟩⟩

/-- `calculate_supertrend` from src/main.py: runs the band/trend loop over
bars `atr_period .. len-1` and packages the final and previous states. -/
def calculate_supertrend (candles : List Candle) (atr_period : ℕ) (multiplier : ℚ) :
    Option STResult :=
  if candles.length < atr_period + 1 then none
  else
    let n := candles.length - atr_period
    some
      { trend_list := (List.range n).map (stTrend candles atr_period multiplier)
        up_list := (List.range n).map (stUp candles atr_period multiplier)
        dn_list := (List.range n).map (stDn candles atr_period multiplier)
        last_trend := stTrend candles atr_period multiplier (n - 1)
        prev_trend := stTrend candles atr_period multiplier (if 2 ≤ n then n - 2 else n - 1)
        last_up := stUp candles atr_period multiplier (n - 1)
        last_dn := stDn candles atr_period multiplier (n - 1)
        prev_dn := stDn candles atr_period multiplier (if 2 ≤ n then n - 2 else n - 1) }

-- ==== Scheduler (the tail of main) ====

/-- `next_hour = (server_time // 3600 + 1) * 3600` from `main`. -/
def next_hour (t : ℚ) : ℚ := (⌊t / 3600⌋ + 1) * 3600

/-- `sleep_time = max(60, next_hour - server_time + 5)` from `main`. -/
def sleep_time (t : ℚ) : ℚ := max 60 (next_hour t - t + 5)

-- ==== Strength score (src/main.py calculate_strength_score_indicator) ====

/-- `calculate_strength_score_indicator` from src/main.py; `math.log` is the
natural logarithm, modelled by `Real.log`.  Returns 0 on a non-positive
volume SMA or ATR, otherwise `log(volume/vol_sma + 1) * |close - st| / atr`
capped at 10 and not rounded. -/
noncomputable def calculate_strength_score_indicator
    (volume vol_sma close st atr : ℝ) : ℝ :=
  if vol_sma ≤ 0 ∨ atr ≤ 0 then 0
  else min (Real.log (volume / vol_sma + 1) * (|close - st| / atr)) 10

/-- C7: the scheduler computes the next scan boundary as
`floor(t/3600 + 1) * 3600` and sleeps `max(60, boundary - t + 5)`;
at server time 3700 the boundary is 7200 and the sleep is 3505 seconds. -/
theorem c7_scheduler_alignment :
    (∀ t : ℚ, next_hour t = (⌊t / 3600 + 1⌋ : ℚ) * 3600 ∧
      sleep_time t = max 60 (next_hour t - t + 5)) ∧
    next_hour 3700 = 7200 ∧ sleep_time 3700 = 3505 := by
  have hfloor : (⌊(3700 : ℚ) / 3600⌋ : ℤ) = 1 := by
    rw [Int.floor_eq_iff]
    norm_num
  refine ⟨fun t => ⟨?_, rfl⟩, ?_, ?_⟩
  · rw [next_hour]
    rw [show (1 : ℚ) = ((1 : ℤ) : ℚ) by norm_num, Int.floor_add_int]
    push_cast
    ring
  · rw [next_hour, hfloor]
    norm_num
  · rw [sleep_time, next_hour, hfloor]
    norm_num

/-- C9: with a positive volume SMA and positive ATR the strength score is
exactly `min (ln(volume/vol_sma + 1) * |close - supertrend| / atr) 10`,
unrounded, and the score never exceeds 10 for any inputs. -/
theorem c9_strength_score (volume vol_sma close st atr : ℝ)
    (h1 : 0 < vol_sma) (h2 : 0 < atr) :
    calculate_strength_score_indicator volume vol_sma close st atr
      = min (Real.log (volume / vol_sma + 1) * (|close - st| / atr)) 10 ∧
    ∀ v vs c s a : ℝ, calculate_strength_score_indicator v vs c s a ≤ 10 := by
  constructor
  · rw [calculate_strength_score_indicator, if_neg]
    push_neg
    exact ⟨h1, h2⟩
  · intro v vs c s a
    rw [calculate_strength_score_indicator]
    split
    · norm_num
    · exact min_le_right _ _

/-- Witness for C9 at concrete inputs `volume = 1, vol_sma = 1, close = 5,
supertrend = 3, atr = 1`. -/
theorem c9_strength_score_witness :
    (0 : ℝ) < 1 ∧
    (calculate_strength_score_indicator 1 1 5 3 1
        = min (Real.log (1 / 1 + 1) * (|(5 : ℝ) - 3| / 1)) 10 ∧
      ∀ v vs c s a : ℝ, calculate_strength_score_indicator v vs c s a ≤ 10) :=
  ⟨one_pos, c9_strength_score 1 1 5 3 1 one_pos one_pos⟩

-- ==== Helper lemmas ====

theorem wilder_zero (p : ℕ) : ∀ l : List ℚ, (∀ v ∈ l, v = 0) → wilder p 0 l = 0 := by
  intro l
  induction l with
  | nil => intro _; rfl
  | cons v t ih =>
    intro hall
    have hv : v = 0 := hall v (by simp)
    have step : (0 * ((p : ℚ) - 1) + v) / (p : ℚ) = 0 := by rw [hv]; simp
    show wilder p ((0 * ((p : ℚ) - 1) + v) / (p : ℚ)) t = 0
    rw [step]
    exact ih (fun x hx => hall x (by simp [hx]))

/-- C3: the RSI contract — fewer than 15 closes give no value; otherwise the
value is determined by the seeded-then-Wilder-smoothed average gain/loss,
clamping to exactly 100 on a zero final average loss and rounding the
`100 - 100/(1+RS)` formula to 2 decimals; and a strictly increasing close
series of length at least 15 yields exactly 100. -/
theorem c3_rsi_contract (closes : List ℚ) :
    (calculate_rsi closes 14
      = if closes.length < 15 then none
        else if rsiAvgLoss closes 14 = 0 then some 100
        else some (round2 (100 - 100 / (1 + rsiAvgGain closes 14 / rsiAvgLoss closes 14)))) ∧
    (15 ≤ closes.length →
      (∀ i, i < closes.length - 1 → closes.getD i 0 < closes.getD (i + 1) 0) →
      calculate_rsi closes 14 = some 100) := by
  constructor
  · rfl
  · intro hlen hmono
    have hz : ∀ x ∈ rsiLosses closes, x = 0 := by
      intro x hx
      rw [rsiLosses, List.mem_map] at hx
      obtain ⟨d, hd, rfl⟩ := hx
      rw [rsiChanges, List.mem_map] at hd
      obtain ⟨i, hi, rfl⟩ := hd
      rw [List.mem_range] at hi
      have := hmono i hi
      have hle : -(closes.getD (i + 1) 0 - closes.getD i 0) ≤ 0 := by linarith
      exact max_eq_right hle
    have hloss : rsiAvgLoss closes 14 = 0 := by
      rw [rsiAvgLoss]
      have hseed : ((rsiLosses closes).take 14).sum = 0 :=
        List.sum_eq_zero (fun x hx => hz x (List.take_subset _ _ hx))
      rw [hseed, zero_div]
      exact wilder_zero 14 _ (fun x hx => hz x (List.drop_subset _ _ hx))
    rw [calculate_rsi, if_neg (by omega), if_pos hloss]

/-- Witness for C3 on the strictly increasing series 1..15. -/
theorem c3_rsi_contract_witness :
    (15 ≤ ([1, 2, 3, 4, 5, 6, 7, 8, 9, 10, 11, 12, 13, 14, 15] : List ℚ).length ∧
      (∀ i, i < ([1, 2, 3, 4, 5, 6, 7, 8, 9, 10, 11, 12, 13, 14, 15] : List ℚ).length - 1 →
        ([1, 2, 3, 4, 5, 6, 7, 8, 9, 10, 11, 12, 13, 14, 15] : List ℚ).getD i 0
          < ([1, 2, 3, 4, 5, 6, 7, 8, 9, 10, 11, 12, 13, 14, 15] : List ℚ).getD (i + 1) 0)) ∧
    calculate_rsi [1, 2, 3, 4, 5, 6, 7, 8, 9, 10, 11, 12, 13, 14, 15] 14 = some 100 :=
  ⟨⟨by decide, by decide⟩,
    (c3_rsi_contract [1, 2, 3, 4, 5, 6, 7, 8, 9, 10, 11, 12, 13, 14, 15]).2
      (by decide) (by decide)⟩

theorem stTrend_succ (c : List Candle) (p : ℕ) (m : ℚ) (i : ℕ) :
    stTrend c p m (i + 1) =
      if stTrend c p m i = -1 ∧ closeAt c (p + i + 1) > stDn c p m i then 1
      else if stTrend c p m i = 1 ∧ closeAt c (p + i + 1) < stUp c p m i then -1
      else stTrend c p m i := rfl

theorem stUp_succ (c : List Candle) (p : ℕ) (m : ℚ) (i : ℕ) :
    stUp c p m (i + 1) =
      if closeAt c (p + i) > stUp c p m i
      then max (rawUp c p m (p + i + 1)) (stUp c p m i)
      else rawUp c p m (p + i + 1) := rfl

theorem stDn_succ (c : List Candle) (p : ℕ) (m : ℚ) (i : ℕ) :
    stDn c p m (i + 1) =
      if closeAt c (p + i) < stDn c p m i
      then min (rawDn c p m (p + i + 1)) (stDn c p m i)
      else rawDn c p m (p + i + 1) := rfl

/-- Every trend value the loop produces is `1` or `-1`. -/
theorem stTrend_one_or_neg_one (c : List Candle) (p : ℕ) (m : ℚ) (i : ℕ) :
    stTrend c p m i = 1 ∨ stTrend c p m i = -1 := by
  induction i with
  | zero => exact Or.inl rfl
  | succ i ih =>
    rw [stTrend_succ]
    split
    · exact Or.inl rfl
    · split
      · exact Or.inr rfl
      · exact ih

/-- C1: supertrend direction semantics (ATR period 10, multiplier 3).  For a
candle list of length at least 11, `calculate_supertrend` returns the
`stTrend`/`stUp`/`stDn` series; the first evaluated bar's trend is 1; a later
bar flips `-1 → 1` exactly when its close exceeds the previous bar's upper
band, flips `1 → -1` exactly when its close drops below the previous bar's
lower band, and otherwise carries the previous trend; and the lower (upper)
band is max'ed (min'ed) against its predecessor exactly when the previous
close was above (below) that predecessor. -/
theorem c1_supertrend_semantics (c : List Candle) (h : 11 ≤ c.length) :
    (∃ r, calculate_supertrend c 10 3 = some r ∧
      r.trend_list = (List.range (c.length - 10)).map (stTrend c 10 3) ∧
      r.up_list = (List.range (c.length - 10)).map (stUp c 10 3) ∧
      r.dn_list = (List.range (c.length - 10)).map (stDn c 10 3)) ∧
    stTrend c 10 3 0 = 1 ∧
    ∀ i : ℕ,
      (stTrend c 10 3 i = 1 ∨ stTrend c 10 3 i = -1) ∧
      (stTrend c 10 3 i = -1 →
        (stTrend c 10 3 (i + 1) = 1 ↔ closeAt c (10 + i + 1) > stDn c 10 3 i)) ∧
      (stTrend c 10 3 i = 1 →
        (stTrend c 10 3 (i + 1) = -1 ↔ closeAt c (10 + i + 1) < stUp c 10 3 i)) ∧
      (stTrend c 10 3 i = -1 → ¬ closeAt c (10 + i + 1) > stDn c 10 3 i →
        stTrend c 10 3 (i + 1) = -1) ∧
      (stTrend c 10 3 i = 1 → ¬ closeAt c (10 + i + 1) < stUp c 10 3 i →
        stTrend c 10 3 (i + 1) = 1) ∧
      (stUp c 10 3 (i + 1) =
        if closeAt c (10 + i) > stUp c 10 3 i
        then max (rawUp c 10 3 (10 + i + 1)) (stUp c 10 3 i)
        else rawUp c 10 3 (10 + i + 1)) ∧
      (stDn c 10 3 (i + 1) =
        if closeAt c (10 + i) < stDn c 10 3 i
        then min (rawDn c 10 3 (10 + i + 1)) (stDn c 10 3 i)
        else rawDn c 10 3 (10 + i + 1)) := by
  have hn : ¬ c.length < 10 + 1 := by omega
  refine ⟨⟨_, by rw [calculate_supertrend, if_neg hn], rfl, rfl, rfl⟩, rfl, fun i => ?_⟩
  refine ⟨stTrend_one_or_neg_one c 10 3 i, ?_, ?_, ?_, ?_, stUp_succ c 10 3 i, stDn_succ c 10 3 i⟩
  · intro hpt
    rw [stTrend_succ, hpt]
    by_cases hc : closeAt c (10 + i + 1) > stDn c 10 3 i
    · simp [hc]
    · simp [hc]
  · intro hpt
    rw [stTrend_succ, hpt]
    by_cases hc : closeAt c (10 + i + 1) < stUp c 10 3 i
    · simp [hc]
    · simp [hc]
  · intro hpt hc
    rw [stTrend_succ, hpt]
    simp [hc]
  · intro hpt hc
    rw [stTrend_succ, hpt]
    simp [hc]

/-- A fixed 11-bar candle list for the C1 witness. -/
def c1candles : List Candle := List.replicate 11 ⟨0, 10, 12, 8, 10, 5, 50⟩

/-- Witness for C1 at a concrete 11-candle input. -/
theorem c1_supertrend_semantics_witness :
    11 ≤ c1candles.length ∧ ∃ r, calculate_supertrend c1candles 10 3 = some r :=
  ⟨by decide, ((c1_supertrend_semantics c1candles (by decide)).1).imp fun _ hr => hr.1⟩

-- ==== Signal detection (src/main.py detect_signals) ====

/-- The breakout signal dictionary built by `detect_signals`. -/
structure BreakoutSig where
  symbol : String
  hour : ℕ
  pct : ℚ
  close : ℚ
  old_red_line : ℚ
  red_distance : ℚ
  new_green_line : ℚ
  green_distance : ℚ
  csince : ℕ
  vol_usdt : ℚ
  vm : ℚ
  indicator_strength : ℝ

/-- The retest signal dictionary built by `detect_signals`. -/
structure RetestSig where
  symbol : String
  hour : ℕ
  pct : ℚ
  close : ℚ
  supertrend : ℚ
  bars_in_trend : ℕ
  vol_usdt : ℚ
  vm : ℚ
  indicator_strength : ℝ
  support_distance : ℚ

/-- The `results` dictionary `detect_signals` returns (it is returned only
when at least one of the two entries is present). -/
structure DetectResult where
  breakout : Option BreakoutSig
  retest : Option RetestSig

/-- The 20-bar simple moving average of base-asset volume ending at
`last_idx` (`vol_sma` in `detect_signals`); `last_idx + 1 - VOL_LEN` equals
Python's `max(0, last_idx - VOL_LEN + 1)`. -/
def volSMA (candles : List Candle) (last_idx : ℕ) : ℚ :=
  let vol_ma_start := last_idx + 1 - VOL_LEN
  let vol_ma_data := (List.range (last_idx + 1 - vol_ma_start)).map
    (fun j => (candles.getD (vol_ma_start + j) default).volume)
  if vol_ma_data = [] then (candles.getD last_idx default).volume
  else vol_ma_data.sum / (vol_ma_data.length : ℚ)

/-- The backward `csince` search of `detect_signals`: walk `look_back` from 1
while it is below `min(499, last_idx)`, stop with 500 once `check_idx < 15`,
and return the first `look_back` whose supertrend prefix shows a bullish
flip; 500 if none is found.  The fuel argument bounds the loop (500 is
enough since the walk is capped at 499 steps). -/
def csinceGo (candles : List Candle) (last_idx : ℕ) : ℕ → ℕ → ℕ
  | 0, _ => 500
  | fuel + 1, look_back =>
    if min 499 last_idx ≤ look_back then 500
    else
      let check_idx := last_idx - look_back
      if check_idx < 15 then 500
      else
        match calculate_supertrend (candles.take (check_idx + 1)) 10 3 with
        | none => csinceGo candles last_idx fuel (look_back + 1)
        | some stc =>
          if stc.prev_trend = -1 ∧ stc.last_trend = 1 then look_back
          else csinceGo candles last_idx fuel (look_back + 1)

def csinceCalc (candles : List Candle) (last_idx : ℕ) : ℕ :=
  csinceGo candles last_idx 500 1

/-- The retest block's backward search for the bar where the uptrend
started: scan indices `len-1 .. 1` for `trend[i] = 1 ∧ trend[i-1] = -1`. -/
def trendStartSearch (tl : List ℤ) : ℕ → Option ℕ
  | 0 => none
  | i + 1 =>
    if tl.getD (i + 1) 0 = 1 ∧ tl.getD i 0 = -1 then some (i + 1)
    else trendStartSearch tl i

/-- The supertrend state `detect_signals` computes for the last closed
candle (`calculate_supertrend(candles[:last_idx+1])`). -/
def stAt (candles : List Candle) : STResult :=
  (calculate_supertrend (candles.take (candles.length - 2 + 1)) 10 3).getD default

/-- The ATR `detect_signals` computes for the last closed candle. -/
def atrAtLast (candles : List Candle) : ℚ :=
  (calculate_atr (candles.take (candles.length - 2 + 1)) 10).getD 0

/-- The breakout block of `detect_signals`: guarded by the bullish flip and
the ATR move confirmation, then (after computing the broken-line distances,
which raises ZeroDivisionError on a zero band, modelled by `Except.error`)
the base-volume confirmation gate decides whether the signal is emitted. -/
noncomputable def breakoutBlock (symbol : String) (candles : List Candle)
    (last_idx hour : ℕ) (pct close prev_close volume vol_usdt vol_sma atr : ℚ)
    (strength : ℝ) (st : STResult) : Except Unit (Option BreakoutSig) :=
  if st.prev_trend = -1 ∧ st.last_trend = 1 ∧
      |close - prev_close| ≥ atr * ATR_MOVE_MULT then
    if st.prev_dn = 0 ∨ st.last_up = 0 then Except.error ()
    else
      let old_red_line := st.prev_dn
      let red_distance := (close - old_red_line) / old_red_line * 100
      let new_green_line := st.last_up
      let green_distance := (close - new_green_line) / new_green_line * 100
      let csince := csinceCalc candles last_idx
      if volume > vol_sma * VOL_MULT_RETEST then
        Except.ok (some
          { symbol := symbol, hour := hour, pct := pct, close := close
            old_red_line := old_red_line, red_distance := red_distance
            new_green_line := new_green_line, green_distance := green_distance
            csince := csince, vol_usdt := vol_usdt
            vm := if vol_sma > 0 then volume / vol_sma else 1
            indicator_strength := strength })
      else Except.ok none
  else Except.ok none

/-- The retest block of `detect_signals`. -/
noncomputable def retestBlock (symbol : String) (hour : ℕ)
    (pct close open_p low volume vol_usdt vol_sma : ℚ) (strength : ℝ)
    (st : STResult) : Except Unit (Option RetestSig) :=
  if st.last_trend = 1 then
    match trendStartSearch st.trend_list (st.trend_list.length - 1) with
    | none => Except.ok none
    | some trend_start_idx =>
      let bars_in_trend := st.trend_list.length - trend_start_idx - 1
      if low ≤ st.last_up ∧ close > st.last_up ∧ close > open_p ∧
          bars_in_trend ≤ RETEST_TIMING_MAX then
        if volume > vol_sma * VOL_MULT_RETEST then
          if st.last_up = 0 then Except.error ()
          else Except.ok (some
            { symbol := symbol, hour := hour, pct := pct, close := close
              supertrend := st.last_up, bars_in_trend := bars_in_trend
              vol_usdt := vol_usdt
              vm := if vol_sma > 0 then volume / vol_sma else 1
              indicator_strength := strength
              support_distance := (close - st.last_up) / st.last_up * 100 })
        else Except.ok none
      else Except.ok none
  else Except.ok none

/-- The tail of `detect_signals`: an exception anywhere makes the whole call
return None; otherwise the results dictionary is returned when non-empty. -/
def detectCombine (b : Except Unit (Option BreakoutSig))
    (r : Except Unit (Option RetestSig)) : Option DetectResult :=
  match b, r with
  | Except.error _, _ => none
  | Except.ok _, Except.error _ => none
  | Except.ok bb, Except.ok rr =>
    if bb.isNone ∧ rr.isNone then none else some { breakout := bb, retest := rr }

/-- `detect_signals` from src/main.py, taken over the already-fetched candle
list (the HTTP fetch and the not-a-list check are modelled by the caller
passing `none`).  A result of `none` models "fewer than 30 candles", "no
signal", and any raised exception alike, because the Python code catches
every exception and returns None; a division whose denominator is zero is a
Python ZeroDivisionError and is modelled by `Except.error`. -/
noncomputable def detect_signals (symbol : String) (candles : List Candle) :
    Option DetectResult :=
  if candles.length < 30 then none
  else
    let last_idx := candles.length - 2
    let last_candle := candles.getD last_idx default
    let prev_candle := candles.getD (last_idx - 1) default
    let hour := last_candle.openTime / 3600000
    let prev_close := prev_candle.close
    let open_p := last_candle.openP
    let low := last_candle.low
    let close := last_candle.close
    let volume := last_candle.volume
    let vol_usdt := open_p * volume
    if prev_close = 0 then none
    else
      let pct := (close - prev_close) / prev_close * 100
      match calculate_supertrend (candles.take (last_idx + 1)) 10 3 with
      | none => none
      | some st =>
        let atr := (calculate_atr (candles.take (last_idx + 1)) 10).getD 0
        let vol_sma := volSMA candles last_idx
        let current_supertrend := if st.last_trend = 1 then st.last_up else st.last_dn
        let strength := calculate_strength_score_indicator
          (volume : ℝ) (vol_sma : ℝ) (close : ℝ) (current_supertrend : ℝ) (atr : ℝ)
        detectCombine
          (breakoutBlock symbol candles last_idx hour pct close prev_close volume
            vol_usdt vol_sma atr strength st)
          (retestBlock symbol hour pct close open_p low volume vol_usdt vol_sma
            strength st)

theorem detectCombine_breakout_isSome (b : Except Unit (Option BreakoutSig))
    (r : Except Unit (Option RetestSig)) :
    (∃ res, detectCombine b r = some res ∧ res.breakout.isSome)
      ↔ (∃ pb, b = Except.ok (some pb)) ∧ (∃ rr, r = Except.ok rr) := by
  rcases b with e | bb
  · simp [detectCombine]
  · rcases r with e | rr
    · simp [detectCombine]
    · rcases bb with _ | pb
      · rcases rr with _ | pr <;> simp [detectCombine]
      · simp [detectCombine]

theorem breakoutBlock_emits (symbol : String) (candles : List Candle)
    (last_idx hour : ℕ) (pct close prev_close volume vol_usdt vol_sma atr : ℚ)
    (strength : ℝ) (st : STResult)
    (hdn : st.prev_dn ≠ 0) (hup : st.last_up ≠ 0) :
    (∃ pb, breakoutBlock symbol candles last_idx hour pct close prev_close volume
        vol_usdt vol_sma atr strength st = Except.ok (some pb))
      ↔ (st.prev_trend = -1 ∧ st.last_trend = 1 ∧
         |close - prev_close| ≥ atr * ATR_MOVE_MULT ∧
         volume > vol_sma * VOL_MULT_RETEST) := by
  simp only [breakoutBlock]
  by_cases h1 : st.prev_trend = -1 ∧ st.last_trend = 1 ∧
      |close - prev_close| ≥ atr * ATR_MOVE_MULT
  · rw [if_pos h1, if_neg (by push_neg; exact ⟨hdn, hup⟩)]
    by_cases h2 : volume > vol_sma * VOL_MULT_RETEST
    · rw [if_pos h2]
      exact iff_of_true ⟨_, rfl⟩ ⟨h1.1, h1.2.1, h1.2.2, h2⟩
    · rw [if_neg h2]
      constructor
      · rintro ⟨pb, hpb⟩
        exact absurd hpb (by simp)
      · rintro ⟨-, -, -, hv⟩
        exact absurd hv h2
  · rw [if_neg h1]
    constructor
    · rintro ⟨pb, hpb⟩
      exact absurd hpb (by simp)
    · rintro ⟨ha, hb, hc, -⟩
      exact absurd ⟨ha, hb, hc⟩ h1

theorem retestBlock_ok (symbol : String) (hour : ℕ)
    (pct close open_p low volume vol_usdt vol_sma : ℚ) (strength : ℝ)
    (st : STResult) (hup : st.last_up ≠ 0) :
    ∃ rr, retestBlock symbol hour pct close open_p low volume vol_usdt vol_sma
        strength st = Except.ok rr := by
  simp only [retestBlock]
  by_cases h1 : st.last_trend = 1
  · rw [if_pos h1]
    rcases hts : trendStartSearch st.trend_list (st.trend_list.length - 1) with _ | tsi
    · exact ⟨none, rfl⟩
    · dsimp only
      by_cases h2 : low ≤ st.last_up ∧ close > st.last_up ∧ close > open_p ∧
          st.trend_list.length - tsi - 1 ≤ RETEST_TIMING_MAX
      · rw [if_pos h2]
        by_cases h3 : volume > vol_sma * VOL_MULT_RETEST
        · rw [if_pos h3, if_neg hup]
          exact ⟨_, rfl⟩
        · rw [if_neg h3]
          exact ⟨none, rfl⟩
      · rw [if_neg h2]
        exact ⟨none, rfl⟩
  · rw [if_neg h1]
    exact ⟨none, rfl⟩

/-- C2: given at least 30 candles and non-degenerate values (non-zero
previous close and non-zero bands, which otherwise raise inside the Python
`try` and suppress the whole evaluation), `detect_signals` produces a
breakout signal if and only if the supertrend direction on the last closed
candle flips from -1 to 1, the ATR move confirmation
`|close - prev_close| >= ATR * 0.5` holds, and the volume confirmation
`volume > 1.5 * SMA20(base volume)` holds — the volume gate reading the
base-asset volume field (candle field 5), not the quote volume. -/
theorem c2_breakout_gates (symbol : String) (candles : List Candle)
    (hlen : 30 ≤ candles.length)
    (hpc : closeAt candles (candles.length - 2 - 1) ≠ 0)
    (hdn : (stAt candles).prev_dn ≠ 0)
    (hup : (stAt candles).last_up ≠ 0) :
    (∃ res, detect_signals symbol candles = some res ∧ res.breakout.isSome)
      ↔ ((stAt candles).prev_trend = -1 ∧ (stAt candles).last_trend = 1 ∧
         |closeAt candles (candles.length - 2) - closeAt candles (candles.length - 2 - 1)|
           ≥ atrAtLast candles * ATR_MOVE_MULT ∧
         (candles.getD (candles.length - 2) default).volume
           > volSMA candles (candles.length - 2) * VOL_MULT_RETEST) := by
  have hlt : ¬ candles.length < 30 := by omega
  have htlen : (candles.take (candles.length - 2 + 1)).length = candles.length - 2 + 1 := by
    rw [List.length_take]
    omega
  obtain ⟨st, hst⟩ : ∃ st, calculate_supertrend (candles.take (candles.length - 2 + 1)) 10 3
      = some st := by
    rw [calculate_supertrend, htlen, if_neg (by omega)]
    exact ⟨_, rfl⟩
  have hstAt : stAt candles = st := by rw [stAt, hst]; rfl
  rw [hstAt] at hdn hup ⊢
  have hpc' : (candles.getD (candles.length - 2 - 1) default).close ≠ 0 := hpc
  simp only [detect_signals, if_neg hlt, if_neg hpc', hst]
  rw [detectCombine_breakout_isSome]
  constructor
  · rintro ⟨hg, -⟩
    exact (breakoutBlock_emits _ _ _ _ _ _ _ _ _ _ _ _ _ hdn hup).mp hg
  · intro hg
    exact ⟨(breakoutBlock_emits _ _ _ _ _ _ _ _ _ _ _ _ _ hdn hup).mpr hg,
      retestBlock_ok _ _ _ _ _ _ _ _ _ _ _ hup⟩

-- ==== A constant candle list, used to discharge witness hypotheses ====

/-- A flat candle: open = high = low = close = 10, base volume 5. -/
def flatCandle : Candle := ⟨0, 10, 10, 10, 10, 5, 50⟩

def c2candles : List Candle := List.replicate 30 flatCandle

theorem getD_replicate_flat (n j : ℕ) (h : j < n) :
    (List.replicate n flatCandle).getD j default = flatCandle := by
  rw [List.getD_eq_getElem?_getD, List.getElem?_replicate, if_pos h]
  rfl

theorem closeAt_flat (n idx : ℕ) (h : idx < n) :
    closeAt (List.replicate n flatCandle) idx = 10 := by
  rw [closeAt, getD_replicate_flat n idx h]
  norm_num [flatCandle]

theorem trueRanges_flat (n : ℕ) :
    ∀ x ∈ trueRanges (List.replicate n flatCandle), x = 0 := by
  intro x hx
  rw [trueRanges, List.mem_map] at hx
  obtain ⟨i, hi, rfl⟩ := hx
  rw [List.mem_range, List.length_replicate] at hi
  dsimp only
  rw [getD_replicate_flat n (i + 1) (by omega), getD_replicate_flat n i (by omega)]
  norm_num [flatCandle]

theorem calculate_atr_flat (n : ℕ) (h : 11 ≤ n) :
    calculate_atr (List.replicate n flatCandle) 10 = some 0 := by
  have hz := trueRanges_flat n
  have hseed : ((trueRanges (List.replicate n flatCandle)).take 10).sum = 0 :=
    List.sum_eq_zero (fun x hx => hz x (List.take_subset _ _ hx))
  have hw : wilder 10 (((trueRanges (List.replicate n flatCandle)).take 10).sum / (10 : ℚ))
      ((trueRanges (List.replicate n flatCandle)).drop 10) = 0 := by
    rw [hseed, zero_div]
    exact wilder_zero 10 _ (fun x hx => hz x (List.drop_subset _ _ hx))
  rw [calculate_atr, if_neg (by rw [List.length_replicate]; omega)]
  exact congrArg some hw

theorem atrAt_flat (n idx : ℕ) (h1 : 10 ≤ idx) (h2 : idx < n) :
    atrAt (List.replicate n flatCandle) 10 idx = 0 := by
  rw [atrAt, List.take_replicate]
  have hmin : min (idx + 1) n = idx + 1 := by omega
  rw [hmin, calculate_atr_flat (idx + 1) (by omega)]
  rfl

theorem srcAt_flat (n idx : ℕ) (h : idx < n) :
    srcAt (List.replicate n flatCandle) idx = 10 := by
  rw [srcAt, getD_replicate_flat n idx h]
  norm_num [flatCandle]

theorem rawUp_flat (n idx : ℕ) (h1 : 10 ≤ idx) (h2 : idx < n) :
    rawUp (List.replicate n flatCandle) 10 3 idx = 10 := by
  rw [rawUp, srcAt_flat n idx h2, atrAt_flat n idx h1 h2]
  norm_num

theorem rawDn_flat (n idx : ℕ) (h1 : 10 ≤ idx) (h2 : idx < n) :
    rawDn (List.replicate n flatCandle) 10 3 idx = 10 := by
  rw [rawDn, srcAt_flat n idx h2, atrAt_flat n idx h1 h2]
  norm_num

theorem stUp_flat (n : ℕ) : ∀ i, 10 + i < n → stUp (List.replicate n flatCandle) 10 3 i = 10 := by
  intro i
  induction i with
  | zero =>
    intro h
    show rawUp (List.replicate n flatCandle) 10 3 10 = 10
    exact rawUp_flat n 10 (by omega) (by omega)
  | succ i ih =>
    intro h
    rw [stUp_succ, ih (by omega), closeAt_flat n (10 + i) (by omega),
      rawUp_flat n (10 + i + 1) (by omega) (by omega)]
    norm_num

theorem stDn_flat (n : ℕ) : ∀ i, 10 + i < n → stDn (List.replicate n flatCandle) 10 3 i = 10 := by
  intro i
  induction i with
  | zero =>
    intro h
    show rawDn (List.replicate n flatCandle) 10 3 10 = 10
    exact rawDn_flat n 10 (by omega) (by omega)
  | succ i ih =>
    intro h
    rw [stDn_succ, ih (by omega), closeAt_flat n (10 + i) (by omega),
      rawDn_flat n (10 + i + 1) (by omega) (by omega)]
    norm_num

theorem stTrend_flat (n : ℕ) :
    ∀ i, 10 + i < n → stTrend (List.replicate n flatCandle) 10 3 i = 1 := by
  intro i
  induction i with
  | zero => intro h; rfl
  | succ i ih =>
    intro h
    rw [stTrend_succ, ih (by omega), closeAt_flat n (10 + i + 1) (by omega),
      stUp_flat n i (by omega)]
    norm_num

theorem take_c2candles :
    c2candles.take (c2candles.length - 2 + 1) = List.replicate 29 flatCandle := by
  rw [c2candles, List.length_replicate, List.take_replicate]
  norm_num

set_option maxRecDepth 8000 in
theorem stAt_c2_prev_dn : (stAt c2candles).prev_dn = 10 := by
  rw [stAt, take_c2candles, calculate_supertrend,
    if_neg (by rw [List.length_replicate]; omega)]
  show stDn (List.replicate 29 flatCandle) 10 3
      (if 2 ≤ (List.replicate 29 flatCandle).length - 10
       then (List.replicate 29 flatCandle).length - 10 - 2
       else (List.replicate 29 flatCandle).length - 10 - 1) = 10
  rw [List.length_replicate, if_pos (by omega)]
  exact stDn_flat 29 (29 - 10 - 2) (by omega)

set_option maxRecDepth 8000 in
theorem stAt_c2_last_up : (stAt c2candles).last_up = 10 := by
  rw [stAt, take_c2candles, calculate_supertrend,
    if_neg (by rw [List.length_replicate]; omega)]
  show stUp (List.replicate 29 flatCandle) 10 3 ((List.replicate 29 flatCandle).length - 10 - 1) = 10
  rw [List.length_replicate]
  exact stUp_flat 29 (29 - 10 - 1) (by omega)

set_option maxRecDepth 8000 in
theorem stAt_c2_prev_trend : (stAt c2candles).prev_trend = 1 := by
  rw [stAt, take_c2candles, calculate_supertrend,
    if_neg (by rw [List.length_replicate]; omega)]
  show stTrend (List.replicate 29 flatCandle) 10 3
      (if 2 ≤ (List.replicate 29 flatCandle).length - 10
       then (List.replicate 29 flatCandle).length - 10 - 2
       else (List.replicate 29 flatCandle).length - 10 - 1) = 1
  rw [List.length_replicate, if_pos (by omega)]
  exact stTrend_flat 29 (29 - 10 - 2) (by omega)

/-- Witness for C2 at a concrete 30-candle input: the hypotheses hold, and
since that input's supertrend never leaves the uptrend the gate equivalence
shows no breakout is emitted. -/
theorem c2_breakout_gates_witness :
    (30 ≤ c2candles.length ∧ closeAt c2candles (c2candles.length - 2 - 1) ≠ 0 ∧
      (stAt c2candles).prev_dn ≠ 0 ∧ (stAt c2candles).last_up ≠ 0) ∧
    ¬ ∃ res, detect_signals "BTCUSDT" c2candles = some res ∧ res.breakout.isSome := by
  have hlen : (30 : ℕ) ≤ c2candles.length := by
    rw [c2candles, List.length_replicate]
  have hpc : closeAt c2candles (c2candles.length - 2 - 1) ≠ 0 := by
    rw [c2candles, List.length_replicate, closeAt_flat 30 (30 - 2 - 1) (by omega)]
    norm_num
  have hdn : (stAt c2candles).prev_dn ≠ 0 := by
    rw [stAt_c2_prev_dn]
    norm_num
  have hup : (stAt c2candles).last_up ≠ 0 := by
    rw [stAt_c2_last_up]
    norm_num
  refine ⟨⟨hlen, hpc, hdn, hup⟩, fun hex => ?_⟩
  have hgates := (c2_breakout_gates "BTCUSDT" c2candles hlen hpc hdn hup).mp hex
  rw [stAt_c2_prev_trend] at hgates
  exact absurd hgates.1 (by norm_num)

-- ==== Main-loop cycle (the body of the while loop in main) ====

/-- A deduplication key as `main` builds it: `(kind, symbol, hour)` with kind
`"B"` for breakouts and `"R"` for retests. -/
abbrev SigKey := String × String × ℕ

/-- What the main loop reads from a signal dictionary: the dedup-key fields;
the rest of the payload is opaque to the loop and carried as `payload`. -/
structure KeyedSig (α : Type) where
  symbol : String
  hour : ℕ
  payload : α
deriving DecidableEq

def sigKey {α : Type} (kind : String) (s : KeyedSig α) : SigKey :=
  (kind, s.symbol, s.hour)

/-- One line of the signal log file: the `type` tag (`'breakout'` or
`'retest'`) together with the signal payload. -/
inductive LogEntry (α β : Type) where
  | breakout (s : KeyedSig α)
  | retest (s : KeyedSig β)
deriving DecidableEq

/-- One pass of the mark-fresh loop in `main`: a signal whose key is absent
from the store is marked (`add`), collected as fresh, and logged, in input
order; a signal whose key is present is skipped entirely. -/
def dedupPass {γ δ : Type} (keyOf : γ → SigKey) (entryOf : γ → δ)
    (reported : Finset SigKey) : List γ → Finset SigKey × List γ × List δ
  | [] => (reported, [], [])
  | s :: rest =>
    if keyOf s ∈ reported then dedupPass keyOf entryOf reported rest
    else
      let r := dedupPass keyOf entryOf (insert (keyOf s) reported) rest
      (r.1, s :: r.2.1, entryOf s :: r.2.2)

/-- The observable outcome of one main-loop cycle. -/
structure CycleResult (α β : Type) where
  reported : Finset SigKey
  freshB : List (KeyedSig α)
  freshR : List (KeyedSig β)
  logged : List (LogEntry α β)
  sendAttempted : Bool

/-- One iteration of the `while True` loop in `main`, after the scan: mark
and log fresh breakouts then fresh retests; when at least one signal is
fresh, render and send the report (`sendSuccess` abstracts the Telegram
outcome); on send failure, `discard` every just-added breakout and retest
key from the store. -/
def mainCycle {α β : Type} (reported : Finset SigKey)
    (breakouts : List (KeyedSig α)) (retests : List (KeyedSig β))
    (sendSuccess : Bool) : CycleResult α β :=
  let pb : Finset SigKey × List (KeyedSig α) × List (LogEntry α β) :=
    dedupPass (sigKey "B") LogEntry.breakout reported breakouts
  let pr : Finset SigKey × List (KeyedSig β) × List (LogEntry α β) :=
    dedupPass (sigKey "R") LogEntry.retest pb.1 retests
  let freshB := pb.2.1
  let freshR := pr.2.1
  let logged := pb.2.2 ++ pr.2.2
  if 0 < freshB.length + freshR.length then
    if sendSuccess then
      { reported := pr.1, freshB := freshB, freshR := freshR,
        logged := logged, sendAttempted := true }
    else
      { reported := (freshR.foldl (fun s r => s.erase (sigKey "R" r))
          (freshB.foldl (fun s b => s.erase (sigKey "B" b)) pr.1)),
        freshB := freshB, freshR := freshR,
        logged := logged, sendAttempted := true }
  else
    { reported := pr.1, freshB := freshB, freshR := freshR,
      logged := logged, sendAttempted := false }

theorem dedupPass_set_mem {γ δ : Type} (keyOf : γ → SigKey) (entryOf : γ → δ) :
    ∀ (l : List γ) (s : Finset SigKey) (k : SigKey),
      k ∈ (dedupPass keyOf entryOf s l).1 ↔
        k ∈ s ∨ k ∈ (dedupPass keyOf entryOf s l).2.1.map keyOf := by
  intro l
  induction l with
  | nil => intro s k; simp [dedupPass]
  | cons x rest ih =>
    intro s k
    rw [dedupPass]
    by_cases hx : keyOf x ∈ s
    · rw [if_pos hx]
      exact ih s k
    · rw [if_neg hx]
      dsimp only
      rw [ih (insert (keyOf x) s) k]
      simp only [Finset.mem_insert, List.map_cons, List.mem_cons]
      tauto

theorem dedupPass_fresh_not_mem {γ δ : Type} (keyOf : γ → SigKey) (entryOf : γ → δ) :
    ∀ (l : List γ) (s : Finset SigKey) (g : γ),
      g ∈ (dedupPass keyOf entryOf s l).2.1 → keyOf g ∉ s := by
  intro l
  induction l with
  | nil => intro s g hg; simp [dedupPass] at hg
  | cons x rest ih =>
    intro s g hg
    rw [dedupPass] at hg
    by_cases hx : keyOf x ∈ s
    · rw [if_pos hx] at hg
      exact ih s g hg
    · rw [if_neg hx] at hg
      dsimp only at hg
      rcases List.mem_cons.mp hg with rfl | hg'
      · exact hx
      · intro hmem
        exact ih (insert (keyOf x) s) g hg' (Finset.mem_insert_of_mem hmem)

theorem dedupPass_log_eq {γ δ : Type} (keyOf : γ → SigKey) (entryOf : γ → δ) :
    ∀ (l : List γ) (s : Finset SigKey),
      (dedupPass keyOf entryOf s l).2.2 = (dedupPass keyOf entryOf s l).2.1.map entryOf := by
  intro l
  induction l with
  | nil => intro s; simp [dedupPass]
  | cons x rest ih =>
    intro s
    rw [dedupPass]
    by_cases hx : keyOf x ∈ s
    · rw [if_pos hx]
      exact ih s
    · rw [if_neg hx]
      dsimp only
      rw [List.map_cons, ih (insert (keyOf x) s)]

theorem dedupPass_fresh_sub {γ δ : Type} (keyOf : γ → SigKey) (entryOf : γ → δ) :
    ∀ (l : List γ) (s : Finset SigKey),
      (dedupPass keyOf entryOf s l).2.1 ⊆ l := by
  intro l
  induction l with
  | nil => intro s; simp [dedupPass]
  | cons x rest ih =>
    intro s
    rw [dedupPass]
    by_cases hx : keyOf x ∈ s
    · rw [if_pos hx]
      exact List.Subset.trans (ih s) (List.subset_cons_self _ _)
    · rw [if_neg hx]
      dsimp only
      exact List.cons_subset_cons x (ih (insert (keyOf x) s))

theorem foldl_erase_mem {γ : Type} (keyOf : γ → SigKey) :
    ∀ (l : List γ) (X : Finset SigKey) (k : SigKey),
      k ∈ l.foldl (fun s g => s.erase (keyOf g)) X ↔ k ∈ X ∧ k ∉ l.map keyOf := by
  intro l
  induction l with
  | nil => intro X k; simp
  | cons x rest ih =>
    intro X k
    rw [List.foldl_cons, ih]
    simp only [Finset.mem_erase, List.map_cons, List.mem_cons]
    tauto

theorem mainCycle_logged {α β : Type} (reported : Finset SigKey)
    (B : List (KeyedSig α)) (R : List (KeyedSig β)) (s : Bool) :
    (mainCycle reported B R s).logged
      = (dedupPass (sigKey "B") (@LogEntry.breakout α β) reported B).2.2
        ++ (dedupPass (sigKey "R") (@LogEntry.retest α β)
             (dedupPass (sigKey "B") (@LogEntry.breakout α β) reported B).1 R).2.2 := by
  rw [mainCycle]
  split
  · split <;> rfl
  · rfl

theorem mainCycle_freshB {α β : Type} (reported : Finset SigKey)
    (B : List (KeyedSig α)) (R : List (KeyedSig β)) (s : Bool) :
    (mainCycle reported B R s).freshB
      = (dedupPass (sigKey "B") (@LogEntry.breakout α β) reported B).2.1 := by
  rw [mainCycle]
  split
  · split <;> rfl
  · rfl

theorem mainCycle_freshR {α β : Type} (reported : Finset SigKey)
    (B : List (KeyedSig α)) (R : List (KeyedSig β)) (s : Bool) :
    (mainCycle reported B R s).freshR
      = (dedupPass (sigKey "R") (@LogEntry.retest α β)
          (dedupPass (sigKey "B") (@LogEntry.breakout α β) reported B).1 R).2.1 := by
  rw [mainCycle]
  split
  · split <;> rfl
  · rfl

/-- Discarding exactly the just-added fresh breakout and retest keys
restores the pre-cycle store. -/
theorem rollback_restores {α β : Type} (reported : Finset SigKey)
    (B : List (KeyedSig α)) (R : List (KeyedSig β)) :
    ((dedupPass (sigKey "R") (@LogEntry.retest α β)
        (dedupPass (sigKey "B") (@LogEntry.breakout α β) reported B).1 R).2.1.foldl
      (fun s r => s.erase (sigKey "R" r))
      ((dedupPass (sigKey "B") (@LogEntry.breakout α β) reported B).2.1.foldl
        (fun s b => s.erase (sigKey "B" b))
        (dedupPass (sigKey "R") (@LogEntry.retest α β)
          (dedupPass (sigKey "B") (@LogEntry.breakout α β) reported B).1 R).1))
    = reported := by
  ext k
  rw [foldl_erase_mem, foldl_erase_mem, dedupPass_set_mem, dedupPass_set_mem]
  constructor
  · rintro ⟨⟨h | hB, hnB⟩, hnR⟩
    · rcases h with h | hB'
      · exact h
      · exact absurd hB' hnB
    · exact absurd hB hnR
  · intro hk
    have hnB : k ∉ (dedupPass (sigKey "B") (@LogEntry.breakout α β) reported B).2.1.map
        (sigKey "B") := by
      intro hmem
      rw [List.mem_map] at hmem
      obtain ⟨g, hg, rfl⟩ := hmem
      exact dedupPass_fresh_not_mem _ _ _ _ _ hg hk
    have hnR : k ∉ (dedupPass (sigKey "R") (@LogEntry.retest α β)
        (dedupPass (sigKey "B") (@LogEntry.breakout α β) reported B).1 R).2.1.map
        (sigKey "R") := by
      intro hmem
      rw [List.mem_map] at hmem
      obtain ⟨g, hg, rfl⟩ := hmem
      exact dedupPass_fresh_not_mem _ _ _ _ _ hg
        ((dedupPass_set_mem _ _ _ _ _).mpr (Or.inl hk))
    exact ⟨⟨Or.inl (Or.inl hk), hnB⟩, hnR⟩

/-- C4: in a cycle whose Telegram send fails, every dedup key added for the
cycle's fresh breakout and retest signals is discarded again, so the store
is exactly its pre-cycle state and a rerun of the cycle sees the same fresh
signals; on send success no key is removed from the store. -/
theorem c4_dedup_rollback {α β : Type} (reported : Finset SigKey)
    (B : List (KeyedSig α)) (R : List (KeyedSig β)) :
    (mainCycle reported B R false).reported = reported ∧
    reported ⊆ (mainCycle reported B R true).reported ∧
    ∀ s2 : Bool, mainCycle ((mainCycle reported B R false).reported) B R s2
      = mainCycle reported B R s2 := by
  have h1 : (mainCycle reported B R false).reported = reported := by
    rw [mainCycle]
    split
    · simp only [Bool.false_eq_true, if_false]
      exact rollback_restores reported B R
    · rename_i hc
      dsimp only
      have hB0 : (dedupPass (sigKey "B") (@LogEntry.breakout α β) reported B).2.1 = [] := by
        apply List.length_eq_zero.mp
        omega
      have hR0 : (dedupPass (sigKey "R") (@LogEntry.retest α β)
          (dedupPass (sigKey "B") (@LogEntry.breakout α β) reported B).1 R).2.1 = [] := by
        apply List.length_eq_zero.mp
        omega
      ext k
      rw [dedupPass_set_mem, dedupPass_set_mem, hB0, hR0]
      simp
  have h2 : reported ⊆ (mainCycle reported B R true).reported := by
    intro k hk
    have hmem : k ∈ (dedupPass (sigKey "R") (@LogEntry.retest α β)
        (dedupPass (sigKey "B") (@LogEntry.breakout α β) reported B).1 R).1 :=
      (dedupPass_set_mem _ _ _ _ _).mpr (Or.inl ((dedupPass_set_mem _ _ _ _ _).mpr (Or.inl hk)))
    rw [mainCycle]
    split
    · rw [if_pos rfl]
      exact hmem
    · exact hmem
  exact ⟨h1, h2, fun s2 => by rw [h1]⟩

-- ==== C5: what the Signal Logger actually receives ====

def c5key : SigKey := ("B", "ADAUSDT", 1)

def c5sig : KeyedSig ℕ := ⟨"ADAUSDT", 1, 0⟩

def c5reported : Finset SigKey := {c5key}

/-- C5 counterexample: a scanned breakout whose dedup key is already in the
reported-signals store is NOT appended to the signal log (the log call sits
inside the freshness branch), refuting the claim that every detected signal
is logged including already-reported ones. -/
theorem c5_every_signal_logged_counterexample :
    ¬ ∀ (reported : Finset SigKey) (breakouts retests : List (KeyedSig ℕ))
        (success : Bool), ∀ b ∈ breakouts,
          LogEntry.breakout b ∈ (mainCycle reported breakouts retests success).logged := by
  intro hclaim
  have hmem := hclaim c5reported [c5sig] [] true c5sig (List.mem_singleton_self _)
  have hkey : sigKey "B" c5sig ∈ c5reported := Finset.mem_singleton_self _
  have hlog : (mainCycle c5reported [c5sig] ([] : List (KeyedSig ℕ)) true).logged
      = ([] : List (LogEntry ℕ ℕ)) := by
    simp [mainCycle_logged, dedupPass, hkey]
  rw [hlog] at hmem
  exact List.not_mem_nil _ hmem

/-- C5 (amended): in every cycle the log receives exactly the FRESH signals
(first the fresh breakouts, then the fresh retests, in scan order), each
before notification is attempted — the log content does not depend on the
send outcome; a signal whose dedup key is already present in the store is
neither logged nor re-reported. -/
theorem c5_fresh_logging {α β : Type} (reported : Finset SigKey)
    (breakouts : List (KeyedSig α)) (retests : List (KeyedSig β)) (success : Bool) :
    ((mainCycle reported breakouts retests success).logged
      = (mainCycle reported breakouts retests success).freshB.map LogEntry.breakout
        ++ (mainCycle reported breakouts retests success).freshR.map LogEntry.retest) ∧
    ((mainCycle reported breakouts retests success).logged
      = (mainCycle reported breakouts retests true).logged) ∧
    (∀ b ∈ breakouts, sigKey "B" b ∈ reported →
      LogEntry.breakout b ∉ (mainCycle reported breakouts retests success).logged) ∧
    (∀ r ∈ retests, sigKey "R" r ∈ reported →
      LogEntry.retest r ∉ (mainCycle reported breakouts retests success).logged) := by
  have hlog := mainCycle_logged reported breakouts retests success
  have hlogT := mainCycle_logged reported breakouts retests true
  have hfB := mainCycle_freshB reported breakouts retests success
  have hfR := mainCycle_freshR reported breakouts retests success
  refine ⟨?_, by rw [hlog, hlogT], ?_, ?_⟩
  · rw [hlog, hfB, hfR, dedupPass_log_eq, dedupPass_log_eq]
  · intro b hb hkey hmem
    rw [hlog] at hmem
    rcases List.mem_append.mp hmem with hm | hm
    · rw [dedupPass_log_eq, List.mem_map] at hm
      obtain ⟨g, hg, he⟩ := hm
      injection he with h
      subst h
      exact dedupPass_fresh_not_mem _ _ _ _ _ hg hkey
    · rw [dedupPass_log_eq, List.mem_map] at hm
      obtain ⟨g, hg, he⟩ := hm
      exact LogEntry.noConfusion he
  · intro r hr hkey hmem
    rw [hlog] at hmem
    rcases List.mem_append.mp hmem with hm | hm
    · rw [dedupPass_log_eq, List.mem_map] at hm
      obtain ⟨g, hg, he⟩ := hm
      exact LogEntry.noConfusion he
    · rw [dedupPass_log_eq, List.mem_map] at hm
      obtain ⟨g, hg, he⟩ := hm
      injection he with h
      subst h
      exact dedupPass_fresh_not_mem _ _ _ _ _ hg
        ((dedupPass_set_mem _ _ _ _ _).mpr (Or.inl hkey))

/-- Witness for the amended C5 at a concrete input with an already-reported
breakout key. -/
theorem c5_fresh_logging_witness :
    (c5sig ∈ [c5sig] ∧ sigKey "B" c5sig ∈ c5reported) ∧
    LogEntry.breakout c5sig ∉
      (mainCycle c5reported [c5sig] ([] : List (KeyedSig ℕ)) true).logged :=
  ⟨⟨List.mem_singleton_self _, Finset.mem_singleton_self _⟩,
    (c5_fresh_logging c5reported [c5sig] [] true).2.2.1 c5sig
      (List.mem_singleton_self _) (Finset.mem_singleton_self _)⟩

-- ==== Telegram notifier (src/main.py send_telegram) ====

/-- The outcome of one HTTP POST to the Telegram API: an HTTP status code,
or a raised network exception. -/
inductive TgOutcome where
  | status (code : ℕ)
  | exn
deriving DecidableEq

/-- The observable result of `send_telegram`: the returned flag, the number
of POST attempts made, and the trace of `time.sleep` calls (seconds). -/
structure SendResult where
  success : Bool
  attempts : ℕ
  sleeps : List ℕ
deriving DecidableEq

/-- The retry loop of `send_telegram` over an abstract transport `f` (the
outcome of each attempt): HTTP 200 returns `True` at once; any other status
retries with no pause; a network exception sleeps 2 seconds before the next
attempt unless it was the last one.  `rem` is the number of loop iterations
left (`max_retries - attempt`). -/
def sendLoop (f : ℕ → TgOutcome) (max_retries : ℕ) : ℕ → ℕ → List ℕ → SendResult
  | 0, attempt, sleeps => { success := false, attempts := attempt, sleeps := sleeps }
  | rem + 1, attempt, sleeps =>
    match f attempt with
    | TgOutcome.status code =>
      if code = 200 then { success := true, attempts := attempt + 1, sleeps := sleeps }
      else sendLoop f max_retries rem (attempt + 1) sleeps
    | TgOutcome.exn =>
      if attempt < max_retries - 1 then
        sendLoop f max_retries rem (attempt + 1) (sleeps ++ [2])
      else sendLoop f max_retries rem (attempt + 1) sleeps

/-- `send_telegram` from src/main.py, over the abstract transport. -/
def send_telegram (f : ℕ → TgOutcome) (max_retries : ℕ) : SendResult :=
  sendLoop f max_retries max_retries 0 []

theorem sendLoop_attempts_le (f : ℕ → TgOutcome) (mr : ℕ) :
    ∀ rem attempt sleeps, (sendLoop f mr rem attempt sleeps).attempts ≤ attempt + rem := by
  intro rem
  induction rem with
  | zero => intro a s; simp [sendLoop]
  | succ rem ih =>
    intro a s
    rw [sendLoop]
    rcases f a with c | _
    · dsimp only
      by_cases hc : c = 200
      · rw [if_pos hc]
        dsimp only
        omega
      · rw [if_neg hc]
        exact le_trans (ih (a + 1) s) (by omega)
    · dsimp only
      by_cases ha : a < mr - 1
      · rw [if_pos ha]
        exact le_trans (ih (a + 1) (s ++ [2])) (by omega)
      · rw [if_neg ha]
        exact le_trans (ih (a + 1) s) (by omega)

/-- C6 counterexample: against an endpoint that always answers HTTP 500 the
code makes its 3 attempts back to back with NO sleep calls — the 2-second
pause sits only on the network-exception path — so the sleep trace is not
one pause between each pair of consecutive attempts. -/
theorem c6_pause_counterexample :
    ¬ (send_telegram (fun _ => TgOutcome.status 500) 3).sleeps
        = List.replicate ((send_telegram (fun _ => TgOutcome.status 500) 3).attempts - 1) 2 := by
  decide

/-- C6 (amended): `send_telegram` makes at most 3 attempts; HTTP 200 on the
first attempt returns success immediately after exactly 1 attempt; any other
status or a network exception is a retryable failure, but the 2-second pause
happens only after an exception (never after a non-200 status, and not after
the final attempt); if no attempt returns HTTP 200, it performs exactly 3
attempts and returns failure. -/
theorem c6_retry_contract (f : ℕ → TgOutcome) :
    (send_telegram f 3).attempts ≤ 3 ∧
    (f 0 = TgOutcome.status 200 →
      send_telegram f 3 = { success := true, attempts := 1, sleeps := [] }) ∧
    ((f 0 ≠ TgOutcome.status 200 ∧ f 1 ≠ TgOutcome.status 200 ∧
        f 2 ≠ TgOutcome.status 200) →
      send_telegram f 3
        = { success := false, attempts := 3,
            sleeps := (if f 0 = TgOutcome.exn then [2] else [])
              ++ (if f 1 = TgOutcome.exn then [2] else []) }) := by
  refine ⟨by simpa using sendLoop_attempts_le f 3 3 0 [], ?_, ?_⟩
  · intro h0
    rw [send_telegram, sendLoop, h0]
    norm_num
  · rintro ⟨h0, h1, h2⟩
    rw [send_telegram, sendLoop]
    rcases hf0 : f 0 with c0 | _
    · rw [hf0] at h0
      have hc0 : ¬ c0 = 200 := fun h => h0 (by rw [h])
      dsimp only
      rw [if_neg hc0, sendLoop]
      rcases hf1 : f 1 with c1 | _
      · rw [hf1] at h1
        have hc1 : ¬ c1 = 200 := fun h => h1 (by rw [h])
        dsimp only
        rw [if_neg hc1, sendLoop]
        rcases hf2 : f 2 with c2 | _
        · rw [hf2] at h2
          have hc2 : ¬ c2 = 200 := fun h => h2 (by rw [h])
          dsimp only
          rw [if_neg hc2, sendLoop]
          simp
        · simp [sendLoop]
      · dsimp only
        rw [if_pos (by omega), sendLoop]
        rcases hf2 : f 2 with c2 | _
        · rw [hf2] at h2
          have hc2 : ¬ c2 = 200 := fun h => h2 (by rw [h])
          dsimp only
          rw [if_neg hc2, sendLoop]
          simp
        · simp [sendLoop]
    · dsimp only
      rw [if_pos (by omega), sendLoop]
      rcases hf1 : f 1 with c1 | _
      · rw [hf1] at h1
        have hc1 : ¬ c1 = 200 := fun h => h1 (by rw [h])
        dsimp only
        rw [if_neg hc1, sendLoop]
        rcases hf2 : f 2 with c2 | _
        · rw [hf2] at h2
          have hc2 : ¬ c2 = 200 := fun h => h2 (by rw [h])
          dsimp only
          rw [if_neg hc2, sendLoop]
          simp
        · simp [sendLoop]
      · dsimp only
        rw [if_pos (by omega), sendLoop]
        rcases hf2 : f 2 with c2 | _
        · rw [hf2] at h2
          have hc2 : ¬ c2 = 200 := fun h => h2 (by rw [h])
          dsimp only
          rw [if_neg hc2, sendLoop]
          simp
        · simp [sendLoop]

/-- Witness for the amended C6 against the always-HTTP-500 transport. -/
theorem c6_retry_contract_witness :
    ((fun _ : ℕ => TgOutcome.status 500) 0 ≠ TgOutcome.status 200 ∧
     (fun _ : ℕ => TgOutcome.status 500) 1 ≠ TgOutcome.status 200 ∧
     (fun _ : ℕ => TgOutcome.status 500) 2 ≠ TgOutcome.status 200) ∧
    send_telegram (fun _ => TgOutcome.status 500) 3
      = { success := false, attempts := 3,
          sleeps :=
            (if (fun _ : ℕ => TgOutcome.status 500) 0 = TgOutcome.exn then [2] else [])
            ++ (if (fun _ : ℕ => TgOutcome.status 500) 1 = TgOutcome.exn then [2] else []) } :=
  ⟨by decide,
    (c6_retry_contract (fun _ => TgOutcome.status 500)).2.2 (by decide)⟩

-- ==== Ticker universe (src/main.py CUSTOM_TICKERS / get_usdt_pairs) ====

/-- The hand-curated base-asset ticker list `CUSTOM_TICKERS`. -/
def CUSTOM_TICKERS : List String := [
  "At", "A2Z", "ACE", "ACH", "ACT", "ADA", "ADX", "AGLD",
  "AIXBT", "Algo", "ALICE", "ALPINE", "ALT", "AMP", "ANKR", "APE",
  "API3", "APT", "AR", "ARB", "ARDR", "Ark", "ARKM", "ARPA",
  "ASTR", "Ata", "ATOM", "AVA", "AVAX", "AWE", "AXL", "BANANA",
  "BAND", "BAT", "BCH", "BEAMX", "BICO", "BIO", "Blur", "BMT",
  "Btc", "CELO", "Celr", "CFX", "CGPT", "CHR", "CHZ", "CKB",
  "COOKIE", "Cos", "CTSI", "CVC", "Cyber", "Dash", "DATA", "DCR",
  "Dent", "DeXe", "DGB", "DIA", "DOGE", "DOT", "DUSK", "EDU",
  "EGLD", "ENJ", "ENS", "EPIC", "ERA", "ETC", "ETH", "FET",
  "FIDA", "FIL", "fio", "Flow", "Flux", "Gala", "Gas", "GLM",
  "GLMR", "GMT", "GPS", "GRT", "GTC", "HBAR", "HEI", "HIGH",
  "Hive", "HOOK", "HOT", "HYPER", "ICP", "ICX", "ID", "IMX",
  "INIT", "IO", "IOST", "IOTA", "IOTX", "IQ", "JASMY", "Kaia",
  "KAITO", "KSM", "la", "layer", "LINK", "LPT", "LRC", "LSK",
  "LTC", "LUNA", "MAGIC", "MANA", "Manta", "Mask", "MDT", "ME",
  "Metis", "Mina", "MOVR", "MTL", "NEAR", "NEWT", "NFP", "NIL",
  "NKN", "NTRN", "OM", "ONE", "ONG", "OP", "ORDI", "OXT",
  "PARTI", "PAXG", "PHA", "PHB", "PIVX", "Plume", "POL", "POLYX",
  "POND", "Portal", "POWR", "Prom", "PROVE", "PUNDIX", "Pyth", "QKC",
  "QNT", "Qtum", "RAD", "RARE", "REI", "Render", "REQ", "RIF",
  "RLC", "Ronin", "ROSE", "Rsr", "RVN", "Saga", "SAHARA", "SAND",
  "SC", "SCR", "SCRT", "SEI", "SFP", "SHELL", "Sign", "SKL",
  "Sol", "SOPH", "Ssv", "Steem", "Storj", "STRAX", "STX", "Sui",
  "SXP", "SXT", "SYS", "TAO", "TFUEL", "Theta", "TIA", "TNSR",
  "TON", "TOWNS", "TRB", "TRX", "TWT", "Uma", "UTK", "Vana",
  "VANRY", "VET", "VIC", "VIRTUAL", "VTHO", "WAXP", "WCT", "win",
  "WLD", "Xai", "XEC", "XLM", "XNO", "XRP", "XTZ", "XVG",
  "Zec", "ZEN", "ZIL", "ZK", "ZRO", "0G", "2Z", "C",
  "D", "ENSO", "G", "HOLO", "KITE", "LINEA", "MIRA", "OPEN",
  "S", "SAPIEN", "SOMI", "W", "WAL", "XPL", "ZBT", "ZKC"]

/-- Python `list(dict.fromkeys(...))`: drop duplicates keeping the first
occurrence of each element, in order; `seen` holds the keys already kept. -/
def dedupFirstGo (seen : List String) : List String → List String
  | [] => []
  | x :: xs =>
    if x ∈ seen then dedupFirstGo seen xs
    else x :: dedupFirstGo (x :: seen) xs

def dedupFirst (l : List String) : List String := dedupFirstGo [] l

/-- One instrument row of the exchange metadata (`data["symbols"]`). -/
structure SymbolInfo where
  symbol : String
  quoteAsset : String
  status : String
deriving DecidableEq

/-- `get_usdt_pairs` from src/main.py over the metadata response; `none`
models any fetch/parse exception, which the code catches, returning `[]`. -/
def get_usdt_pairs (resp : Option (List SymbolInfo)) : List String :=
  let candidates := dedupFirst (CUSTOM_TICKERS.map (fun t => t.toUpper ++ "USDT"))
  match resp with
  | none => []
  | some data =>
    candidates.filter (fun c =>
      data.any (fun s => s.symbol == c && s.quoteAsset == "USDT" && s.status == "TRADING"))

theorem mem_dedupFirstGo (x : String) :
    ∀ (l seen : List String), x ∈ dedupFirstGo seen l ↔ x ∈ l ∧ x ∉ seen := by
  intro l
  induction l with
  | nil => intro seen; simp [dedupFirstGo]
  | cons y ys ih =>
    intro seen
    rw [dedupFirstGo]
    by_cases hy : y ∈ seen
    · rw [if_pos hy, ih]
      by_cases hxy : x = y
      · subst hxy
        simp [hy]
      · simp [List.mem_cons, hxy]
    · rw [if_neg hy]
      by_cases hxy : x = y
      · subst hxy
        simp [hy]
      · simp only [List.mem_cons, ih (y :: seen)]
        tauto

theorem nodup_dedupFirstGo :
    ∀ (l seen : List String), (dedupFirstGo seen l).Nodup := by
  intro l
  induction l with
  | nil => intro seen; simp [dedupFirstGo]
  | cons y ys ih =>
    intro seen
    rw [dedupFirstGo]
    by_cases hy : y ∈ seen
    · rw [if_pos hy]
      exact ih seen
    · rw [if_neg hy]
      refine List.Nodup.cons ?_ (ih (y :: seen))
      intro hmem
      exact ((mem_dedupFirstGo y ys (y :: seen)).mp hmem).2 (List.mem_cons_self _ _)

theorem sublist_dedupFirstGo :
    ∀ (l seen : List String), (dedupFirstGo seen l).Sublist l := by
  intro l
  induction l with
  | nil => intro seen; simp [dedupFirstGo]
  | cons y ys ih =>
    intro seen
    rw [dedupFirstGo]
    by_cases hy : y ∈ seen
    · rw [if_pos hy]
      exact List.Sublist.cons y (ih seen)
    · rw [if_neg hy]
      exact List.Sublist.cons₂ y (ih (y :: seen))

/-- C8: on metadata failure the resolver returns `[]`; on success it returns
exactly the uppercased tickers with `"USDT"` appended, deduplicated in
first-seen order, restricted to symbols that are USDT-quoted and TRADING in
the metadata; the result has no duplicates and is a sublist (hence in
first-seen order) of the deduplicated candidate list; and a symbol is in the
result exactly when it comes from a curated ticker and matches a USDT-quoted
TRADING instrument of the metadata. -/
theorem c8_ticker_universe :
    (get_usdt_pairs none = []) ∧
    (∀ data, get_usdt_pairs (some data)
      = (dedupFirst (CUSTOM_TICKERS.map (fun t => t.toUpper ++ "USDT"))).filter
          (fun c => data.any (fun s =>
            s.symbol == c && s.quoteAsset == "USDT" && s.status == "TRADING"))) ∧
    (∀ resp, (get_usdt_pairs resp).Nodup) ∧
    (∀ resp, (get_usdt_pairs resp).Sublist
      (dedupFirst (CUSTOM_TICKERS.map (fun t => t.toUpper ++ "USDT")))) ∧
    (∀ resp sym, sym ∈ get_usdt_pairs resp ↔
      ((∃ t ∈ CUSTOM_TICKERS, t.toUpper ++ "USDT" = sym) ∧
        ∃ data, resp = some data ∧ ∃ s ∈ data,
          s.symbol = sym ∧ s.quoteAsset = "USDT" ∧ s.status = "TRADING")) := by
  refine ⟨rfl, fun data => rfl, ?_, ?_, ?_⟩
  · intro resp
    rcases resp with _ | data
    · simp [get_usdt_pairs]
    · exact List.Nodup.filter _ (nodup_dedupFirstGo _ [])
  · intro resp
    rcases resp with _ | data
    · simp [get_usdt_pairs]
    · exact List.filter_sublist _
  · intro resp sym
    rcases resp with _ | data
    · simp [get_usdt_pairs]
    · rw [get_usdt_pairs]
      simp only [List.mem_filter, dedupFirst, mem_dedupFirstGo, List.mem_map,
        List.any_eq_true, Bool.and_eq_true, beq_iff_eq, List.not_mem_nil,
        not_false_eq_true, and_true, Option.some.injEq]
      constructor
      · rintro ⟨ht, x, hx, ⟨h1, h2⟩, h3⟩
        exact ⟨ht, data, rfl, x, hx, h1, h2, h3⟩
      · rintro ⟨ht, data2, rfl, s, hs, h1, h2, h3⟩
        exact ⟨ht, s, hs, ⟨h1, h2⟩, h3⟩

-- ==== RSI enrichment and scan assembly (src/main.py) ====

/-- `calculate_rsi_for_signal` from src/main.py over an abstract fetch:
`none` models a network failure or a non-list (error-object) response;
fewer than 20 candles give no value; otherwise RSI(14) over the closes up
to the last closed candle. -/
def calculate_rsi_for_signal (fetch : String → Option (List Candle))
    (symbol : String) : Option ℚ :=
  match fetch symbol with
  | none => none
  | some candles =>
    if candles.length < 20 then none
    else
      let last_idx := candles.length - 2
      let all_closes := (List.range (last_idx + 1)).map (fun j => closeAt candles j)
      calculate_rsi all_closes RSI_PERIOD

/-- `list(result.values())[0]['symbol']`: the symbol of the first entry of
the results dictionary (insertion order: breakout first, else retest). -/
def DetectResult.sym (r : DetectResult) : String :=
  match r.breakout with
  | some b => b.symbol
  | none =>
    match r.retest with
    | some rt => rt.symbol
    | none => ""

/-- A breakout signal with its RSI attached (`{**data, 'rsi': rsi}`). -/
structure FinalB where
  base : BreakoutSig
  rsi : ℚ

/-- A retest signal with its RSI attached. -/
structure FinalR where
  base : RetestSig
  rsi : ℚ

/-- The `final_signals` dictionary of `scan_all_symbols`. -/
structure ScanOut where
  breakouts : List FinalB
  retests : List FinalR

/-- One step of the RSI-collection loop for breakouts: the candidate's
breakout (RSI attached) is appended only when the RSI has a value. -/
def collectB (acc : List FinalB) (p : DetectResult × Option ℚ) : List FinalB :=
  match p.1.breakout, p.2 with
  | some b, some x => acc ++ [{ base := b, rsi := x }]
  | _, _ => acc

/-- One step of the RSI-collection loop for retests. -/
def collectR (acc : List FinalR) (p : DetectResult × Option ℚ) : List FinalR :=
  match p.1.retest, p.2 with
  | some rt, some x => acc ++ [{ base := rt, rsi := x }]
  | _, _ => acc

/-- The final breakout signal a candidate contributes, if any: present only
when the candidate holds a breakout and its RSI fetch yields a value. -/
def finalBOf (fetch : String → Option (List Candle)) (r : DetectResult) :
    Option FinalB :=
  match r.breakout, calculate_rsi_for_signal fetch r.sym with
  | some b, some x => some { base := b, rsi := x }
  | _, _ => none

/-- The final retest signal a candidate contributes, if any. -/
def finalROf (fetch : String → Option (List Candle)) (r : DetectResult) :
    Option FinalR :=
  match r.retest, calculate_rsi_for_signal fetch r.sym with
  | some rt, some x => some { base := rt, rsi := x }
  | _, _ => none

open Classical in
/-- The RSI-enrichment and filter stage of `scan_all_symbols`, over the
collected per-symbol detection results (`signal_candidates`): a candidate's
breakout/retest enters `final_signals` only when the follow-up RSI fetch
yields a value; the breakout filter block runs only when one of the three
MIN_* filters is enabled (all are 0 in the source). -/
noncomputable def scan_all_symbols (fetch : String → Option (List Candle))
    (cands : List DetectResult) : ScanOut :=
  let withRsi := cands.map (fun r => (r, calculate_rsi_for_signal fetch r.sym))
  let bks := withRsi.foldl collectB ([] : List FinalB)
  let rts := withRsi.foldl collectR ([] : List FinalR)
  if MIN_STRENGTH_SCORE > 0 ∨ 0 < MIN_CSINCE ∨ MIN_VOLUME_MULT > 0 then
    { breakouts := bks.filter (fun b =>
        decide ((MIN_STRENGTH_SCORE : ℝ) ≤ b.base.indicator_strength ∧
          MIN_CSINCE ≤ b.base.csince ∧ MIN_VOLUME_MULT ≤ b.base.vm))
      retests := rts }
  else { breakouts := bks, retests := rts }

/-- The main loop's view of a final breakout signal: its dedup-key fields
(`b['symbol']`, `b['hour']`) plus the payload. -/
def keyedB (b : FinalB) : KeyedSig FinalB := ⟨b.base.symbol, b.base.hour, b⟩

def keyedR (r : FinalR) : KeyedSig FinalR := ⟨r.base.symbol, r.base.hour, r⟩

theorem foldl_collectB_eq (fetch : String → Option (List Candle)) :
    ∀ (cands : List DetectResult) (acc : List FinalB),
      (cands.map (fun r => (r, calculate_rsi_for_signal fetch r.sym))).foldl collectB acc
        = acc ++ cands.filterMap (finalBOf fetch) := by
  intro cands
  induction cands with
  | nil => intro acc; simp
  | cons c rest ih =>
    intro acc
    rw [List.map_cons, List.foldl_cons, List.filterMap_cons]
    rcases hb : c.breakout with _ | b
    · rw [show collectB acc (c, calculate_rsi_for_signal fetch c.sym) = acc by
        simp [collectB, hb]]
      rw [show finalBOf fetch c = none by simp [finalBOf, hb]]
      exact ih acc
    · rcases hr : calculate_rsi_for_signal fetch c.sym with _ | x
      · rw [show collectB acc (c, (none : Option ℚ)) = acc by simp [collectB, hb]]
        rw [show finalBOf fetch c = none by simp [finalBOf, hb, hr]]
        exact ih acc
      · rw [show collectB acc (c, some x) = acc ++ [{ base := b, rsi := x }] by
          simp [collectB, hb]]
        rw [show finalBOf fetch c = some { base := b, rsi := x } by
          simp [finalBOf, hb, hr]]
        rw [ih (acc ++ [({ base := b, rsi := x } : FinalB)])]
        simp

theorem foldl_collectR_eq (fetch : String → Option (List Candle)) :
    ∀ (cands : List DetectResult) (acc : List FinalR),
      (cands.map (fun r => (r, calculate_rsi_for_signal fetch r.sym))).foldl collectR acc
        = acc ++ cands.filterMap (finalROf fetch) := by
  intro cands
  induction cands with
  | nil => intro acc; simp
  | cons c rest ih =>
    intro acc
    rw [List.map_cons, List.foldl_cons, List.filterMap_cons]
    rcases hb : c.retest with _ | rt
    · rw [show collectR acc (c, calculate_rsi_for_signal fetch c.sym) = acc by
        simp [collectR, hb]]
      rw [show finalROf fetch c = none by simp [finalROf, hb]]
      exact ih acc
    · rcases hr : calculate_rsi_for_signal fetch c.sym with _ | x
      · rw [show collectR acc (c, (none : Option ℚ)) = acc by simp [collectR, hb]]
        rw [show finalROf fetch c = none by simp [finalROf, hb, hr]]
        exact ih acc
      · rw [show collectR acc (c, some x) = acc ++ [{ base := rt, rsi := x }] by
          simp [collectR, hb]]
        rw [show finalROf fetch c = some { base := rt, rsi := x } by
          simp [finalROf, hb, hr]]
        rw [ih (acc ++ [({ base := rt, rsi := x } : FinalR)])]
        simp

/-- C10: in `scan_all_symbols`, a detected breakout or retest whose
follow-up RSI computation yields no value is silently dropped — the final
signal lists are exactly the candidates whose RSI is defined, with that RSI
attached (`finalBOf`/`finalROf` are `none` whenever the RSI is `none`) —
and the cycle's log (hence everything deduplicated, logged or reported
downstream) draws only from these RSI-carrying final signals. -/
theorem c10_rsi_gate (fetch : String → Option (List Candle))
    (cands : List DetectResult) :
    ((scan_all_symbols fetch cands).breakouts = cands.filterMap (finalBOf fetch)) ∧
    ((scan_all_symbols fetch cands).retests = cands.filterMap (finalROf fetch)) ∧
    (∀ r : DetectResult, calculate_rsi_for_signal fetch r.sym = none →
      finalBOf fetch r = none ∧ finalROf fetch r = none) ∧
    (∀ (reported : Finset SigKey) (s : Bool),
      (mainCycle reported ((scan_all_symbols fetch cands).breakouts.map keyedB)
          ((scan_all_symbols fetch cands).retests.map keyedR) s).logged
        ⊆ ((scan_all_symbols fetch cands).breakouts.map
              (fun b => LogEntry.breakout (keyedB b))
            ++ (scan_all_symbols fetch cands).retests.map
              (fun r => LogEntry.retest (keyedR r)))) := by
  have hcond : ¬ (MIN_STRENGTH_SCORE > 0 ∨ 0 < MIN_CSINCE ∨ MIN_VOLUME_MULT > 0) := by
    norm_num [MIN_STRENGTH_SCORE, MIN_CSINCE, MIN_VOLUME_MULT]
  refine ⟨?_, ?_, ?_, ?_⟩
  · rw [scan_all_symbols, if_neg hcond]
    exact foldl_collectB_eq fetch cands []
  · rw [scan_all_symbols, if_neg hcond]
    exact foldl_collectR_eq fetch cands []
  · intro r hr
    constructor
    · rw [finalBOf, hr]
      rcases r.breakout with _ | b <;> rfl
    · rw [finalROf, hr]
      rcases r.retest with _ | rt <;> rfl
  · intro reported s e he
    rw [mainCycle_logged, dedupPass_log_eq, dedupPass_log_eq] at he
    rcases List.mem_append.mp he with hm | hm
    · rw [List.mem_map] at hm
      obtain ⟨g, hg, rfl⟩ := hm
      have hgin : g ∈ (scan_all_symbols fetch cands).breakouts.map keyedB :=
        dedupPass_fresh_sub _ _ _ _ hg
      rw [List.mem_map] at hgin
      obtain ⟨fb, hfb, rfl⟩ := hgin
      exact List.mem_append.mpr (Or.inl (List.mem_map.mpr ⟨fb, hfb, rfl⟩))
    · rw [List.mem_map] at hm
      obtain ⟨g, hg, rfl⟩ := hm
      have hgin : g ∈ (scan_all_symbols fetch cands).retests.map keyedR :=
        dedupPass_fresh_sub _ _ _ _ hg
      rw [List.mem_map] at hgin
      obtain ⟨fr, hfr, rfl⟩ := hgin
      exact List.mem_append.mpr (Or.inr (List.mem_map.mpr ⟨fr, hfr, rfl⟩))

/-- Witness for C10: with a failing fetch, a candidate contributes neither
a final breakout nor a final retest. -/
theorem c10_rsi_gate_witness :
    calculate_rsi_for_signal (fun _ => none)
        (DetectResult.sym ⟨none, none⟩) = none ∧
    (finalBOf (fun _ => none) ⟨none, none⟩ = none ∧
      finalROf (fun _ => none) ⟨none, none⟩ = none) :=
  ⟨rfl, (c10_rsi_gate (fun _ => none) []).2.2.1 ⟨none, none⟩ rfl⟩
